import Mathlib

open scoped List

/-!
Shallow embedding of `fakturama_backup.py`.

Python strings are modelled as `List Char`. The Python primitives the
source uses — `str.find`, slicing (including negative and out-of-range
indices), `startswith`, `endswith`, list slicing, `sorted(..., reverse=True)`
— are modelled exactly, in particular the fact that `-0 == 0` in a slice
bound. The C library date functions `strftime` and `strptime` are external
collaborators of the template engine; they are modelled as a parameter
structure `DateLib`, and a concrete instance `pyLib` reproduces the
CPython behaviour of the directives `%Y`, `%m`, `%d` so that concrete
runs can be evaluated.
-/

/-- Python index normalisation for a slice bound: a negative index counts
from the end (clamped at 0), a non-negative index is clamped at the length. -/
def pyIndex (n : Nat) (i : Int) : Nat :=
  if i < 0 then ((n : Int) + i).toNat else min i.toNat n

/-- Python slice `l[a:b]` with step 1. -/
def pySlice {α : Type} (l : List α) (a b : Int) : List α :=
  (l.take (pyIndex l.length b)).drop (pyIndex l.length a)

/-- Index of the first occurrence of `pat` in a string, scanning left to
right; `none` when `pat` never occurs. -/
def strFindAux (pat : List Char) : List Char → Option Nat
  | [] => if pat.isPrefixOf ([] : List Char) then some 0 else none
  | c :: rest =>
      if pat.isPrefixOf (c :: rest) then some 0
      else (strFindAux pat rest).map (· + 1)

/-- Python `s.find(pat)`: index of the first occurrence, `-1` when absent. -/
def strFind (s pat : List Char) : Int :=
  match strFindAux pat s with
  | some i => (i : Int)
  | none => -1

/-- Source constant `TEMPLATE_DATE_PLACEHOLDER_START = "[["`. -/
def TEMPLATE_DATE_PLACEHOLDER_START : List Char := ['[', '[']

/-- Source constant `TEMPLATE_DATE_PLACEHOLDER_END = "]]"`. -/
def TEMPLATE_DATE_PLACEHOLDER_END : List Char := [']', ']']

/-- External date library collaborator. `strftime d fmt` models
`d.strftime(fmt)`; `strptime s fmt` models
`datetime.strptime(s, fmt).date()`, with `none` for the `ValueError`
raised on a parse failure (the source catches exactly that). -/
structure DateLib (Date : Type) where
  strftime : Date → List Char → List Char
  strptime : List Char → List Char → Option Date

/-- The two `ValueError` reasons of `FilenameTemplate.__init__`, named as
in the specification. -/
inductive TemplateError where
  | missingDateToken : TemplateError
  | invalidDateFormat : TemplateError
deriving DecidableEq

/-- The fields stored by a successfully constructed `FilenameTemplate`:
`_template`, `_prefix`, `_postfix`, `_date_format`. -/
structure FilenameTemplate where
  template : List Char
  prefixStr : List Char
  postfixStr : List Char
  date_format : List Char
deriving DecidableEq

/-- `FilenameTemplate.__init__`, with the two `raise ValueError` paths as
`Except.error`. The slice expressions are the ones of the source with the
`let` bindings `idx_start`, `idx_end`, `date_format` inlined:
`idx_start = template.find("[[")`, `idx_end = template.find("]]")`,
`date_format = template[idx_start + 2 : idx_end]`,
`prefix = template[:idx_start]`, `postfix = template[idx_end + 2:]`. -/
def mkFilenameTemplate {Date : Type} (L : DateLib Date) (today : Date)
    (template : List Char) : Except TemplateError FilenameTemplate :=
  if strFind template TEMPLATE_DATE_PLACEHOLDER_START = -1 ∨
      strFind template TEMPLATE_DATE_PLACEHOLDER_END = -1 then
    .error .missingDateToken
  else if L.strftime today
      (pySlice template
        (strFind template TEMPLATE_DATE_PLACEHOLDER_START +
          (TEMPLATE_DATE_PLACEHOLDER_START.length : Int))
        (strFind template TEMPLATE_DATE_PLACEHOLDER_END)) = [] then
    .error .invalidDateFormat
  else
    .ok ⟨template,
      pySlice template 0 (strFind template TEMPLATE_DATE_PLACEHOLDER_START),
      pySlice template
        (strFind template TEMPLATE_DATE_PLACEHOLDER_END +
          (TEMPLATE_DATE_PLACEHOLDER_END.length : Int))
        (template.length : Int),
      pySlice template
        (strFind template TEMPLATE_DATE_PLACEHOLDER_START +
          (TEMPLATE_DATE_PLACEHOLDER_START.length : Int))
        (strFind template TEMPLATE_DATE_PLACEHOLDER_END)⟩

/-- `FilenameTemplate.match`: `startswith`, `endswith`, then
`filename[len(self._prefix):-len(self._postfix)]` is parsed, a
`ValueError` becoming `None`. Note the bound `-len(postfix)` is the
integer negation of the source, so `-0 == 0` when the postfix is empty. -/
def FilenameTemplate.matchFilename {Date : Type} (L : DateLib Date)
    (t : FilenameTemplate) (filename : List Char) : Option Date :=
  if ¬ t.prefixStr.isPrefixOf filename then none
  else if ¬ t.postfixStr.isSuffixOf filename then none
  else
    L.strptime
      (pySlice filename (t.prefixStr.length : Int) (-(t.postfixStr.length : Int)))
      t.date_format

/-- Modelled from the spec: rendering is absent from the source
(`create_backup` is unimplemented), so this follows §4.1 of the
specification verbatim: `render(date) = prefix + format(date, dateFormat)
+ postfix`. -/
def FilenameTemplate.render {Date : Type} (L : DateLib Date)
    (t : FilenameTemplate) (d : Date) : List Char :=
  t.prefixStr ++ L.strftime d t.date_format ++ t.postfixStr

/-! Concrete date model: a `datetime.date` value and the behaviour of the
CPython `strftime` and `strptime` on the directives `%Y`, `%m`, `%d`,
with `%%` as a literal percent and unknown directives kept verbatim by
`strftime` and rejected by `strptime` (in CPython the latter raises a
`ValueError`, which the caller in the source treats like a parse
failure). The initial `strptime` accumulator is the CPython default
1900-01-01 for the fields the format does not set. -/

/-- A calendar date as in `datetime.date`. -/
structure PyDate where
  year : Nat
  month : Nat
  day : Nat
deriving DecidableEq

/-- Decimal digits of a number, most significant first. -/
def natChars (n : Nat) : List Char := Nat.toDigits 10 n

/-- Zero-pad to two digits, as `%m` and `%d` do. -/
def pad2 (n : Nat) : List Char :=
  if n < 10 then '0' :: natChars n else natChars n

/-- Concrete `strftime` on the supported directives. -/
def strftimeModel (d : PyDate) : List Char → List Char
  | [] => []
  | '%' :: 'Y' :: fr => natChars d.year ++ strftimeModel d fr
  | '%' :: 'm' :: fr => pad2 d.month ++ strftimeModel d fr
  | '%' :: 'd' :: fr => pad2 d.day ++ strftimeModel d fr
  | '%' :: '%' :: fr => '%' :: strftimeModel d fr
  | '%' :: c :: fr => '%' :: c :: strftimeModel d fr
  | c :: fr => c :: strftimeModel d fr

/-- Greedily take up to `n` leading decimal digits. -/
def takeDigits : Nat → List Char → List Char × List Char
  | 0, s => ([], s)
  | _ + 1, [] => ([], [])
  | n + 1, c :: s =>
      if c.isDigit then
        let p := takeDigits n s
        (c :: p.1, p.2)
      else ([], c :: s)

/-- Numeric value of a digit string. -/
def digitsVal (ds : List Char) : Nat :=
  ds.foldl (fun a c => a * 10 + (c.toNat - 48)) 0

/-- Concrete `strptime` engine: consume the format, updating the
accumulated date; the whole input must be consumed. `%Y` takes up to four
digits, `%m` and `%d` up to two with range checks, as the CPython
`_strptime` regular expressions do. -/
def strptimeRun : List Char → List Char → PyDate → Option PyDate
  | s, [], acc => if s = [] then some acc else none
  | s, '%' :: 'Y' :: fr, acc =>
      match takeDigits 4 s with
      | ([], _) => none
      | (ds, rest) => strptimeRun rest fr { acc with year := digitsVal ds }
  | s, '%' :: 'm' :: fr, acc =>
      match takeDigits 2 s with
      | ([], _) => none
      | (ds, rest) =>
          if 1 ≤ digitsVal ds ∧ digitsVal ds ≤ 12 then
            strptimeRun rest fr { acc with month := digitsVal ds }
          else none
  | s, '%' :: 'd' :: fr, acc =>
      match takeDigits 2 s with
      | ([], _) => none
      | (ds, rest) =>
          if 1 ≤ digitsVal ds ∧ digitsVal ds ≤ 31 then
            strptimeRun rest fr { acc with day := digitsVal ds }
          else none
  | '%' :: s, '%' :: '%' :: fr, acc => strptimeRun s fr acc
  | _, '%' :: '%' :: _, _ => none
  | _, '%' :: _ :: _, _ => none
  | _, ['%'], _ => none
  | c' :: s, c :: fr, acc => if c = c' then strptimeRun s fr acc else none
  | [], _ :: _, _ => none

/-- The concrete date library instance used for concrete runs. -/
def pyLib : DateLib PyDate :=
  ⟨strftimeModel, fun s fmt => strptimeRun s fmt ⟨1900, 1, 1⟩⟩

/-! Retention selection: `find_backups` produces `(date, path)` pairs and
`filter_discard_backups` sorts them by date, most recent first, and
returns the slice `backups[retain:]`. -/

/-- `BackupInfo = tuple[dt.date, os.PathLike]`. -/
abbrev BackupInfo : Type := PyDate × List Char

/-- Python comparison of `datetime.date` values: lexicographic on
(year, month, day). -/
def dateLeB (a b : PyDate) : Bool :=
  decide (a.year < b.year ∨ (a.year = b.year ∧
    (a.month < b.month ∨ (a.month = b.month ∧ a.day ≤ b.day))))

/-- Insert a record into a descending-sorted list, before the first entry
whose date is less than or equal to its own. Folding this over the input
is the stable descending sort `sorted(key=lambda b: b[0], reverse=True)`:
records with equal dates keep their original relative order. -/
def insertDesc (x : BackupInfo) : List BackupInfo → List BackupInfo
  | [] => [x]
  | y :: ys => if dateLeB y.1 x.1 then x :: y :: ys else y :: insertDesc x ys

/-- Stable sort by date, most recent first, modelling
`sorted(backups, key=lambda backup: backup[0], reverse=True)`. -/
def sortBackupsDesc : List BackupInfo → List BackupInfo
  | [] => []
  | x :: xs => insertDesc x (sortBackupsDesc xs)

/-- `filter_discard_backups`: sort newest first and return
`backups[retain:]` (Python list slicing). -/
def filter_discard_backups (backups : List BackupInfo) (retain : Int) :
    List BackupInfo :=
  pySlice (sortBackupsDesc backups) retain ((sortBackupsDesc backups).length : Int)

/-- First-occurrence predicate: `pat` occurs at index `i` of `s` and at no
earlier index. -/
def firstOccurAt (pat s : List Char) (i : Nat) : Prop :=
  pat <+: s.drop i ∧ ∀ j, j < i → ¬ pat <+: s.drop j

/-! Concrete data for evaluating the definitions on particular runs. -/

/-- Characters of a string literal. -/
def str (s : String) : List Char := s.toList

/-- A fixed current date used when constructing concrete templates. -/
def d0 : PyDate := ⟨2026, 10, 12⟩

/-- The concrete date 2023-01-01. -/
def dJan : PyDate := ⟨2023, 1, 1⟩

/-- The template the constructor produces from `"db.[[%Y%m%d]].sql"`. -/
def tW : FilenameTemplate :=
  ⟨str "db.[[%Y%m%d]].sql", str "db.", str ".sql", str "%Y%m%d"⟩

/-- The template the constructor produces from `"a[[%Y]]"`; its postfix
is the empty string. -/
def tEmptyPost : FilenameTemplate := ⟨str "a[[%Y]]", str "a", [], str "%Y"⟩

/-- Three concrete backup records in scan order. -/
def b0 : List BackupInfo :=
  [(⟨2023, 1, 1⟩, str "/b/db.20230101.sql"),
   (⟨2023, 1, 3⟩, str "/b/db.20230103.sql"),
   (⟨2023, 1, 2⟩, str "/b/db.20230102.sql")]

/-- The oldest record of `b0`. -/
def x0 : BackupInfo := (⟨2023, 1, 1⟩, str "/b/db.20230101.sql")

/-- The newest record of `b0`. -/
def y0 : BackupInfo := (⟨2023, 1, 3⟩, str "/b/db.20230103.sql")

theorem pyIndex_natCast (n a : Nat) : pyIndex n (a : Int) = min a n := by
  simp [pyIndex]

theorem take_min {α : Type} (l : List α) (m : Nat) :
    l.take (min m l.length) = l.take m := by
  rcases Nat.le_total m l.length with h | h
  · rw [Nat.min_eq_left h]
  · rw [Nat.min_eq_right h, List.take_length, List.take_of_length_le h]

theorem drop_min {α : Type} (l : List α) (m k : Nat) (h : l.length ≤ k) :
    l.drop (min m k) = l.drop m := by
  rcases Nat.le_total m k with h1 | h1
  · rw [Nat.min_eq_left h1]
  · rw [Nat.min_eq_right h1, List.drop_eq_nil_of_le h,
      List.drop_eq_nil_of_le (le_trans h h1)]

theorem pySlice_natCast {α : Type} (l : List α) (a b : Nat) :
    pySlice l (a : Int) (b : Int) = (l.take b).drop a := by
  unfold pySlice
  rw [pyIndex_natCast, pyIndex_natCast, take_min]
  apply drop_min
  rw [List.length_take]
  exact Nat.min_le_right _ _

theorem pyIndex_neg (n p : Nat) (hp : 0 < p) (h : p ≤ n) :
    pyIndex n (-(p : Int)) = n - p := by
  unfold pyIndex
  rw [if_pos (by omega)]
  omega

theorem strFindAux_some_hit {pat : List Char} :
    ∀ {s : List Char} {i : Nat}, strFindAux pat s = some i → pat <+: s.drop i := by
  intro s
  induction s with
  | nil =>
    intro i h
    simp only [strFindAux] at h
    split at h
    · rename_i hcond
      simp only [Option.some.injEq] at h
      subst h
      simpa using List.isPrefixOf_iff_prefix.mp hcond
    · exact absurd h (by simp)
  | cons c rest ih =>
    intro i h
    simp only [strFindAux] at h
    split at h
    · rename_i hcond
      simp only [Option.some.injEq] at h
      subst h
      simpa using List.isPrefixOf_iff_prefix.mp hcond
    · rcases Option.map_eq_some'.mp h with ⟨i', hi', rfl⟩
      simpa using ih hi'

theorem strFindAux_some_min {pat : List Char} :
    ∀ {s : List Char} {i : Nat}, strFindAux pat s = some i →
      ∀ j, j < i → ¬ pat <+: s.drop j := by
  intro s
  induction s with
  | nil =>
    intro i h
    simp only [strFindAux] at h
    split at h
    · simp only [Option.some.injEq] at h
      subst h
      omega
    · exact absurd h (by simp)
  | cons c rest ih =>
    intro i h
    simp only [strFindAux] at h
    split at h
    · simp only [Option.some.injEq] at h
      subst h
      omega
    · rename_i hcond
      rcases Option.map_eq_some'.mp h with ⟨i', hi', rfl⟩
      intro j hj
      cases j with
      | zero =>
        simpa using fun hp => hcond (List.isPrefixOf_iff_prefix.mpr hp)
      | succ j' =>
        simpa using ih hi' j' (by omega)

theorem strFindAux_none {pat : List Char} :
    ∀ {s : List Char}, strFindAux pat s = none → ∀ j, ¬ pat <+: s.drop j := by
  intro s
  induction s with
  | nil =>
    intro h j
    simp only [strFindAux] at h
    split at h
    · exact absurd h (by simp)
    · rename_i hcond
      simpa using fun hp => hcond (List.isPrefixOf_iff_prefix.mpr hp)
  | cons c rest ih =>
    intro h j
    simp only [strFindAux] at h
    split at h
    · exact absurd h (by simp)
    · rename_i hcond
      rw [Option.map_eq_none'] at h
      cases j with
      | zero =>
        simpa using fun hp => hcond (List.isPrefixOf_iff_prefix.mpr hp)
      | succ j' =>
        simpa using ih h j'

theorem infix_of_prefix_drop {pat s : List Char} {i : Nat}
    (h : pat <+: s.drop i) : pat <:+: s := by
  rcases h with ⟨r, hr⟩
  exact ⟨s.take i, r, by rw [List.append_assoc, hr, List.take_append_drop]⟩

theorem strFindAux_isSome_of_occur {pat s : List Char} (h : pat <:+: s) :
    ∃ i, strFindAux pat s = some i := by
  rcases h with ⟨u, v, huv⟩
  cases haux : strFindAux pat s with
  | some i => exact ⟨i, rfl⟩
  | none =>
    exfalso
    apply strFindAux_none haux u.length
    rw [← huv, List.append_assoc, List.drop_left]
    exact ⟨v, rfl⟩

theorem strFind_eq_neg_one {s pat : List Char} :
    strFind s pat = -1 ↔ strFindAux pat s = none := by
  unfold strFind
  cases h : strFindAux pat s with
  | some i => simp
  | none => simp

theorem strFind_of_aux {s pat : List Char} {i : Nat}
    (h : strFindAux pat s = some i) : strFind s pat = (i : Int) := by
  unfold strFind
  rw [h]

theorem firstOccurAt_of_aux {pat s : List Char} {i : Nat}
    (h : strFindAux pat s = some i) : firstOccurAt pat s i :=
  ⟨strFindAux_some_hit h, strFindAux_some_min h⟩

theorem eq_take_append_drop_of_prefix_drop {pat s : List Char} {i : Nat}
    (h : pat <+: s.drop i) :
    s = s.take i ++ pat ++ s.drop (i + pat.length) := by
  rcases h with ⟨r, hr⟩
  have h1 : s.drop (i + pat.length) = r := by
    have h2 := congrArg (List.drop pat.length) hr
    rw [List.drop_drop, List.drop_left] at h2
    exact h2.symm
  calc s = s.take i ++ s.drop i := (List.take_append_drop i s).symm
    _ = s.take i ++ (pat ++ r) := by rw [hr]
    _ = s.take i ++ pat ++ s.drop (i + pat.length) := by
        rw [h1, List.append_assoc]

theorem mk_ok_inv {Date : Type} (L : DateLib Date) (today : Date)
    (tpl : List Char) (t : FilenameTemplate)
    (h : mkFilenameTemplate L today tpl = .ok t) :
    ∃ i j : Nat,
      strFindAux TEMPLATE_DATE_PLACEHOLDER_START tpl = some i ∧
      strFindAux TEMPLATE_DATE_PLACEHOLDER_END tpl = some j ∧
      t.template = tpl ∧
      t.prefixStr = tpl.take i ∧
      t.date_format = (tpl.take j).drop (i + 2) ∧
      t.postfixStr = tpl.drop (j + 2) ∧
      L.strftime today t.date_format ≠ [] := by
  unfold mkFilenameTemplate at h
  split_ifs at h with h1 h2
  push_neg at h1
  obtain ⟨hs, he⟩ := h1
  obtain ⟨i, hi⟩ : ∃ i, strFindAux TEMPLATE_DATE_PLACEHOLDER_START tpl = some i := by
    cases hx : strFindAux TEMPLATE_DATE_PLACEHOLDER_START tpl with
    | some i => exact ⟨i, rfl⟩
    | none => exact absurd (strFind_eq_neg_one.mpr hx) hs
  obtain ⟨j, hj⟩ : ∃ j, strFindAux TEMPLATE_DATE_PLACEHOLDER_END tpl = some j := by
    cases hx : strFindAux TEMPLATE_DATE_PLACEHOLDER_END tpl with
    | some j => exact ⟨j, rfl⟩
    | none => exact absurd (strFind_eq_neg_one.mpr hx) he
  rw [strFind_of_aux hi, strFind_of_aux hj] at h h2
  have hlen2 : (TEMPLATE_DATE_PLACEHOLDER_START.length : Int) = ((2 : Nat) : Int) := rfl
  have hlen2e : (TEMPLATE_DATE_PLACEHOLDER_END.length : Int) = ((2 : Nat) : Int) := rfl
  rw [hlen2] at h h2
  rw [hlen2e] at h
  have e1 : pySlice tpl ((i : Int) + ((2 : Nat) : Int)) (j : Int) =
      (tpl.take j).drop (i + 2) := by
    rw [show ((i : Int) + ((2 : Nat) : Int)) = (((i + 2 : Nat)) : Int) by push_cast; ring]
    exact pySlice_natCast tpl (i + 2) j
  have e2 : pySlice tpl 0 (i : Int) = tpl.take i := by
    rw [show (0 : Int) = ((0 : Nat) : Int) by rfl, pySlice_natCast, List.drop_zero]
  have e3 : pySlice tpl ((j : Int) + ((2 : Nat) : Int)) (tpl.length : Int) =
      tpl.drop (j + 2) := by
    rw [show ((j : Int) + ((2 : Nat) : Int)) = (((j + 2 : Nat)) : Int) by push_cast; ring]
    rw [pySlice_natCast, List.take_length]
  rw [e1, e2, e3] at h
  rw [e1] at h2
  simp only [Except.ok.injEq] at h
  subst h
  exact ⟨i, j, hi, hj, rfl, rfl, rfl, rfl, h2⟩

/-- C4: for every pattern string on which construction of
`FilenameTemplate` succeeds, the stored fields satisfy
`raw == prefix ++ "[[" ++ dateFormat ++ "]]" ++ postfix`, where `prefix`
is the text before the first `[[`, `dateFormat` the text strictly between
the first `[[` and the first `]]`, and `postfix` the text after that
`]]`. The hypothesis `h0` is the library fact that formatting any date
with the empty format yields the empty string. -/
theorem c4_template_structural_invariant {Date : Type} (L : DateLib Date)
    (today : Date) (tpl : List Char) (t : FilenameTemplate)
    (h0 : L.strftime today [] = [])
    (h : mkFilenameTemplate L today tpl = .ok t) :
    t.template = tpl ∧
    ∃ i j : Nat,
      firstOccurAt TEMPLATE_DATE_PLACEHOLDER_START tpl i ∧
      firstOccurAt TEMPLATE_DATE_PLACEHOLDER_END tpl j ∧
      t.prefixStr = tpl.take i ∧
      t.date_format = (tpl.take j).drop (i + 2) ∧
      t.postfixStr = tpl.drop (j + 2) ∧
      t.template = t.prefixStr ++ TEMPLATE_DATE_PLACEHOLDER_START ++
        t.date_format ++ TEMPLATE_DATE_PLACEHOLDER_END ++ t.postfixStr := by
  obtain ⟨i, j, hi, hj, ht, hpre, hfmt, hpost, hne⟩ := mk_ok_inv L today tpl t h
  have hfmtne : t.date_format ≠ [] := by
    intro he
    rw [he] at hne
    exact hne h0
  have hlt : i + 2 < (tpl.take j).length := by
    by_contra hc
    push_neg at hc
    exact hfmtne (hfmt.trans (List.drop_eq_nil_of_le hc))
  rw [List.length_take] at hlt
  have hij : i + 2 < j := by omega
  have hin : i + 2 < tpl.length := by omega
  have hend_drop : TEMPLATE_DATE_PLACEHOLDER_END <+: tpl.drop j :=
    strFindAux_some_hit hj
  have hjlen : j + 2 ≤ tpl.length := by
    have h2 := hend_drop.length_le
    rw [List.length_drop] at h2
    have h3 : TEMPLATE_DATE_PLACEHOLDER_END.length = 2 := rfl
    omega
  have hA : tpl = tpl.take i ++ TEMPLATE_DATE_PLACEHOLDER_START ++ tpl.drop (i + 2) :=
    eq_take_append_drop_of_prefix_drop (strFindAux_some_hit hi)
  have hB : tpl.drop (i + 2) = t.date_format ++ tpl.drop j := by
    have hfmt2 : t.date_format = (tpl.drop (i + 2)).take (j - (i + 2)) := by
      rw [List.take_drop, show i + 2 + (j - (i + 2)) = j by omega]
      exact hfmt
    have hdrop2 : (tpl.drop (i + 2)).drop (j - (i + 2)) = tpl.drop j := by
      rw [List.drop_drop, show i + 2 + (j - (i + 2)) = j by omega]
    calc tpl.drop (i + 2)
        = (tpl.drop (i + 2)).take (j - (i + 2)) ++ (tpl.drop (i + 2)).drop (j - (i + 2)) :=
          (List.take_append_drop _ _).symm
      _ = t.date_format ++ tpl.drop j := by rw [← hfmt2, hdrop2]
  have hC : tpl.drop j = TEMPLATE_DATE_PLACEHOLDER_END ++ tpl.drop (j + 2) := by
    rcases hend_drop with ⟨r, hr⟩
    have hr2 : r = tpl.drop (j + 2) := by
      have h4 := congrArg (List.drop 2) hr
      have h5 : List.drop 2 (TEMPLATE_DATE_PLACEHOLDER_END ++ r) = r :=
        List.drop_left' (by rfl)
      rw [h5, List.drop_drop] at h4
      exact h4
    rw [← hr, hr2]
  refine ⟨ht, i, j, firstOccurAt_of_aux hi, firstOccurAt_of_aux hj, hpre, hfmt, hpost, ?_⟩
  rw [ht, hpre, hpost]
  calc tpl = tpl.take i ++ TEMPLATE_DATE_PLACEHOLDER_START ++ tpl.drop (i + 2) := hA
    _ = tpl.take i ++ TEMPLATE_DATE_PLACEHOLDER_START ++
        (t.date_format ++ (TEMPLATE_DATE_PLACEHOLDER_END ++ tpl.drop (j + 2))) := by
          rw [hB, hC, List.append_assoc]
    _ = tpl.take i ++ TEMPLATE_DATE_PLACEHOLDER_START ++ t.date_format ++
        TEMPLATE_DATE_PLACEHOLDER_END ++ tpl.drop (j + 2) := by
          simp [List.append_assoc]

/-- C5: for every pattern string in which the opening marker or the
closing marker does not occur, constructing a `FilenameTemplate` fails,
specifically with the missing-date-token `ValueError`. -/
theorem c5_missing_date_token {Date : Type} (L : DateLib Date) (today : Date)
    (tpl : List Char)
    (h : ¬ TEMPLATE_DATE_PLACEHOLDER_START <:+: tpl ∨
         ¬ TEMPLATE_DATE_PLACEHOLDER_END <:+: tpl) :
    mkFilenameTemplate L today tpl = .error .missingDateToken := by
  have hc : strFind tpl TEMPLATE_DATE_PLACEHOLDER_START = -1 ∨
      strFind tpl TEMPLATE_DATE_PLACEHOLDER_END = -1 := by
    rcases h with h | h
    · left
      rw [strFind_eq_neg_one]
      cases hx : strFindAux TEMPLATE_DATE_PLACEHOLDER_START tpl with
      | none => rfl
      | some i =>
          exact absurd (infix_of_prefix_drop (strFindAux_some_hit hx)) h
    · right
      rw [strFind_eq_neg_one]
      cases hx : strFindAux TEMPLATE_DATE_PLACEHOLDER_END tpl with
      | none => rfl
      | some j =>
          exact absurd (infix_of_prefix_drop (strFindAux_some_hit hx)) h
  unfold mkFilenameTemplate
  rw [if_pos hc]

/-- C6: for every pattern string containing both markers, construction
fails with the invalid-date-format error exactly when formatting the
current date with the extracted date-format substring
`template[idx_start + 2 : idx_end]` yields the empty string, and
succeeds when it yields a non-empty string. -/
theorem c6_invalid_date_format {Date : Type} (L : DateLib Date) (today : Date)
    (tpl : List Char)
    (h1 : TEMPLATE_DATE_PLACEHOLDER_START <:+: tpl)
    (h2 : TEMPLATE_DATE_PLACEHOLDER_END <:+: tpl) :
    (L.strftime today (pySlice tpl
        (strFind tpl TEMPLATE_DATE_PLACEHOLDER_START +
          (TEMPLATE_DATE_PLACEHOLDER_START.length : Int))
        (strFind tpl TEMPLATE_DATE_PLACEHOLDER_END)) = [] →
      mkFilenameTemplate L today tpl = .error .invalidDateFormat) ∧
    (L.strftime today (pySlice tpl
        (strFind tpl TEMPLATE_DATE_PLACEHOLDER_START +
          (TEMPLATE_DATE_PLACEHOLDER_START.length : Int))
        (strFind tpl TEMPLATE_DATE_PLACEHOLDER_END)) ≠ [] →
      ∃ t, mkFilenameTemplate L today tpl = .ok t) := by
  obtain ⟨i, hi⟩ := strFindAux_isSome_of_occur h1
  obtain ⟨j, hj⟩ := strFindAux_isSome_of_occur h2
  have hne : ¬ (strFind tpl TEMPLATE_DATE_PLACEHOLDER_START = -1 ∨
      strFind tpl TEMPLATE_DATE_PLACEHOLDER_END = -1) := by
    rw [strFind_of_aux hi, strFind_of_aux hj]
    push_neg
    constructor <;> omega
  constructor
  · intro hempty
    unfold mkFilenameTemplate
    rw [if_neg hne, if_pos hempty]
  · intro hnonempty
    unfold mkFilenameTemplate
    rw [if_neg hne, if_neg hnonempty]
    exact ⟨_, rfl⟩

/-- C7: for every constructed template `t` and filename that does not
start with the prefix or does not end with the postfix, and likewise
whenever parsing the extracted middle segment fails, `match` returns
`none` rather than raising. -/
theorem c7_non_match_rejection {Date : Type} (L : DateLib Date) (today : Date)
    (tpl fn : List Char) (t : FilenameTemplate)
    ( _hok : mkFilenameTemplate L today tpl = .ok t)
    (h : ¬ t.prefixStr.isPrefixOf fn = true ∨
         ¬ t.postfixStr.isSuffixOf fn = true ∨
         L.strptime
           (pySlice fn (t.prefixStr.length : Int) (-(t.postfixStr.length : Int)))
           t.date_format = none) :
    t.matchFilename L fn = none := by
  unfold FilenameTemplate.matchFilename
  split_ifs with hp hs
  · rcases h with h | h | h
    · exact absurd hp h
    · exact absurd hs h
    · exact h
  · rfl
  · rfl

/-- C8: for every constructed template and every filename shorter than
the combined length of prefix and postfix, `match` is total and returns
`none`; the middle-segment slice is empty, so the result is the (failing)
parse of the empty string. The hypothesis `hparse` is the library fact
that parsing the empty string against the date format of a constructed
template fails. -/
theorem c8_overlap_safety {Date : Type} (L : DateLib Date) (today : Date)
    (tpl fn : List Char) (t : FilenameTemplate)
    ( _hok : mkFilenameTemplate L today tpl = .ok t)
    (hparse : L.strptime [] t.date_format = none)
    (hlen : fn.length < t.prefixStr.length + t.postfixStr.length) :
    t.matchFilename L fn = none := by
  unfold FilenameTemplate.matchFilename
  split_ifs with hp hs
  · have hp2 : t.prefixStr <+: fn := List.isPrefixOf_iff_prefix.mp hp
    have hs2 : t.postfixStr <:+ fn := List.isSuffixOf_iff_suffix.mp hs
    have hple : t.prefixStr.length ≤ fn.length := hp2.length_le
    have hsle : t.postfixStr.length ≤ fn.length := hs2.length_le
    have hpost_pos : 0 < t.postfixStr.length := by omega
    have hmid : pySlice fn (t.prefixStr.length : Int)
        (-(t.postfixStr.length : Int)) = [] := by
      unfold pySlice
      rw [pyIndex_neg _ _ hpost_pos hsle, pyIndex_natCast]
      apply List.drop_eq_nil_of_le
      rw [List.length_take]
      omega
    rw [hmid]
    exact hparse
  · rfl
  · rfl

/-- C9: for every constructed template with empty postfix, the extracted
middle segment is empty for every filename (the slice bound `-0` is `0`),
so `match` returns `none` whenever parsing the empty string fails, and in
every case the result is independent of the content of the filename
beyond the prefix test. -/
theorem c9_empty_postfix_match {Date : Type} (L : DateLib Date) (today : Date)
    (tpl fn : List Char) (t : FilenameTemplate)
    ( _hok : mkFilenameTemplate L today tpl = .ok t)
    (hpost : t.postfixStr = []) :
    pySlice fn (t.prefixStr.length : Int) (-(t.postfixStr.length : Int)) = [] ∧
    (L.strptime [] t.date_format = none → t.matchFilename L fn = none) ∧
    (t.matchFilename L fn = none ∨
      t.matchFilename L fn = L.strptime [] t.date_format) := by
  have hmid : pySlice fn (t.prefixStr.length : Int)
      (-(t.postfixStr.length : Int)) = [] := by
    rw [hpost]
    simp [pySlice, pyIndex]
  refine ⟨hmid, ?_, ?_⟩
  · intro hparse
    unfold FilenameTemplate.matchFilename
    split_ifs
    · rw [hmid]
      exact hparse
    · rfl
    · rfl
  · unfold FilenameTemplate.matchFilename
    split_ifs
    · rw [hmid]
      exact Or.inr rfl
    · exact Or.inl rfl
    · exact Or.inl rfl

theorem dateLeB_total (a b : PyDate) : dateLeB a b = true ∨ dateLeB b a = true := by
  simp only [dateLeB, decide_eq_true_eq]
  omega

theorem dateLeB_trans {a b c : PyDate} (h1 : dateLeB a b = true)
    (h2 : dateLeB b c = true) : dateLeB a c = true := by
  simp only [dateLeB, decide_eq_true_eq] at h1 h2 ⊢
  omega

theorem insertDesc_perm (x : BackupInfo) (l : List BackupInfo) :
    insertDesc x l ~ x :: l := by
  induction l with
  | nil => exact List.Perm.refl _
  | cons y ys ih =>
    unfold insertDesc
    split_ifs
    · exact List.Perm.refl _
    · exact (List.Perm.cons y ih).trans (List.Perm.swap x y ys)

theorem sortBackupsDesc_perm (l : List BackupInfo) : sortBackupsDesc l ~ l := by
  induction l with
  | nil => exact List.Perm.refl _
  | cons x xs ih =>
    exact (insertDesc_perm x (sortBackupsDesc xs)).trans (List.Perm.cons x ih)

theorem insertDesc_pairwise {x : BackupInfo} {l : List BackupInfo}
    (h : l.Pairwise (fun a b => dateLeB b.1 a.1 = true)) :
    (insertDesc x l).Pairwise (fun a b => dateLeB b.1 a.1 = true) := by
  induction l with
  | nil => simp [insertDesc]
  | cons y ys ih =>
    rw [List.pairwise_cons] at h
    obtain ⟨hy, hys⟩ := h
    unfold insertDesc
    split_ifs with hle
    · rw [List.pairwise_cons]
      refine ⟨?_, ?_⟩
      · intro z hz
        rcases List.mem_cons.mp hz with rfl | hz
        · exact hle
        · exact dateLeB_trans (hy z hz) hle
      · rw [List.pairwise_cons]
        exact ⟨hy, hys⟩
    · rw [List.pairwise_cons]
      refine ⟨?_, ih hys⟩
      intro z hz
      have hz2 : z ∈ x :: ys := (insertDesc_perm x ys).mem_iff.mp hz
      rcases List.mem_cons.mp hz2 with rfl | hz2
      · rcases dateLeB_total y.1 z.1 with h1 | h1
        · exact absurd h1 hle
        · exact h1
      · exact hy z hz2

theorem sortBackupsDesc_pairwise (l : List BackupInfo) :
    (sortBackupsDesc l).Pairwise (fun a b => dateLeB b.1 a.1 = true) := by
  induction l with
  | nil => simp [sortBackupsDesc]
  | cons x xs ih => exact insertDesc_pairwise ih

theorem filter_discard_eq_drop (b : List BackupInfo) (k : Int) (hk : 0 ≤ k) :
    filter_discard_backups b k = (sortBackupsDesc b).drop k.toNat := by
  unfold filter_discard_backups
  obtain ⟨m, rfl⟩ : ∃ m : Nat, k = (m : Int) := ⟨k.toNat, (Int.toNat_of_nonneg hk).symm⟩
  rw [Int.toNat_natCast, pySlice_natCast, List.take_length]

/-- C2: for every record list and integer `retain` at least 0,
`filter_discard_backups` returns exactly `max(0, len - retain)` records
(truncated subtraction on `Nat` is exactly that maximum); the result is
empty when `retain` is at least the length and is all the records,
reordered, when `retain` is 0. -/
theorem c2_retention_count (b : List BackupInfo) (k : Int) (hk : 0 ≤ k) :
    (filter_discard_backups b k).length = b.length - k.toNat ∧
    ((b.length : Int) ≤ k → filter_discard_backups b k = []) ∧
    (k = 0 → filter_discard_backups b k ~ b) := by
  have hperm := sortBackupsDesc_perm b
  have hlen : (sortBackupsDesc b).length = b.length := hperm.length_eq
  rw [filter_discard_eq_drop b k hk]
  refine ⟨?_, ?_, ?_⟩
  · rw [List.length_drop, hlen]
  · intro hle
    apply List.drop_eq_nil_of_le
    omega
  · intro hk0
    subst hk0
    simpa using hperm

/-- C3: every record the retention filter discards has a date at most the
date of every record it keeps (every input record not in the returned
list). -/
theorem c3_retention_selects_oldest (b : List BackupInfo) (k : Int) (hk : 0 ≤ k) :
    ∀ x ∈ filter_discard_backups b k, ∀ y ∈ b,
      y ∉ filter_discard_backups b k → dateLeB x.1 y.1 = true := by
  intro x hx y hy hynot
  rw [filter_discard_eq_drop b k hk] at hx hynot
  have hperm := sortBackupsDesc_perm b
  have hysort : y ∈ (sortBackupsDesc b).take k.toNat ++ (sortBackupsDesc b).drop k.toNat := by
    rw [List.take_append_drop]
    exact hperm.mem_iff.mpr hy
  have hytake : y ∈ (sortBackupsDesc b).take k.toNat := by
    rcases List.mem_append.mp hysort with h | h
    · exact h
    · exact absurd h hynot
  have hpw := sortBackupsDesc_pairwise b
  rw [← List.take_append_drop k.toNat (sortBackupsDesc b), List.pairwise_append] at hpw
  exact hpw.2.2 y hytake x hx

/-- C10: the discard list is a sub-multiset of the input: it is a
subpermutation of the input list, so every `(date, path)` pair occurs in
the result at most as often as in the input, and nothing is fabricated
or duplicated. -/
theorem c10_discard_subset (b : List BackupInfo) (k : Int) (hk : 0 ≤ k) :
    filter_discard_backups b k <+~ b ∧
    ∀ r : BackupInfo,
      Multiset.count r (filter_discard_backups b k : Multiset BackupInfo) ≤
        Multiset.count r (b : Multiset BackupInfo) := by
  have hsub : filter_discard_backups b k <+~ b := by
    rw [filter_discard_eq_drop b k hk]
    exact ((List.drop_sublist _ _).subperm).trans (sortBackupsDesc_perm b).subperm
  exact ⟨hsub, fun r => Multiset.count_le_of_le r (Multiset.coe_le.mpr hsub)⟩

/-- C1: the round-trip law fails on the code. The template built from
`"a[[%Y]]"` is constructed successfully and has empty postfix, so the
middle-segment slice `filename[len(prefix):-0]` is empty and `match`
cannot recover the rendered date: the date 2023-01-01 is representable by
the date format `%Y` (parsing its formatted form returns exactly it), yet
matching the rendered filename returns `none` instead of the date. -/
theorem c1_roundtrip_violated :
    pyLib.strptime (pyLib.strftime dJan (str "%Y")) (str "%Y") = some dJan ∧
    mkFilenameTemplate pyLib d0 (str "a[[%Y]]") = .ok tEmptyPost ∧
    tEmptyPost.date_format = str "%Y" ∧
    tEmptyPost.matchFilename pyLib (tEmptyPost.render pyLib dJan) = none :=
  ⟨by decide, rfl, rfl, by decide⟩

/-- Witness for C2: three records, `retain = 2`. -/
theorem c2_retention_count_witness :
    (0 : Int) ≤ 2 ∧
    ((filter_discard_backups b0 2).length = b0.length - (2 : Int).toNat ∧
     ((b0.length : Int) ≤ 2 → filter_discard_backups b0 2 = []) ∧
     ((2 : Int) = 0 → filter_discard_backups b0 2 ~ b0)) :=
  ⟨by decide, c2_retention_count b0 2 (by decide)⟩

/-- Witness for C3: with `retain = 2` the discarded oldest record has a
date at most that of the kept newest record. -/
theorem c3_retention_selects_oldest_witness :
    (0 : Int) ≤ 2 ∧ x0 ∈ filter_discard_backups b0 2 ∧ y0 ∈ b0 ∧
    y0 ∉ filter_discard_backups b0 2 ∧ dateLeB x0.1 y0.1 = true :=
  ⟨by decide, by decide, by decide, by decide,
    c3_retention_selects_oldest b0 2 (by decide) x0 (by decide) y0 (by decide)
      (by decide)⟩

/-- Witness for C4 at the template string `"db.[[%Y%m%d]].sql"`. -/
theorem c4_template_structural_invariant_witness :
    pyLib.strftime d0 [] = [] ∧
    mkFilenameTemplate pyLib d0 (str "db.[[%Y%m%d]].sql") = .ok tW ∧
    (tW.template = str "db.[[%Y%m%d]].sql" ∧
     ∃ i j : Nat,
       firstOccurAt TEMPLATE_DATE_PLACEHOLDER_START (str "db.[[%Y%m%d]].sql") i ∧
       firstOccurAt TEMPLATE_DATE_PLACEHOLDER_END (str "db.[[%Y%m%d]].sql") j ∧
       tW.prefixStr = (str "db.[[%Y%m%d]].sql").take i ∧
       tW.date_format = ((str "db.[[%Y%m%d]].sql").take j).drop (i + 2) ∧
       tW.postfixStr = (str "db.[[%Y%m%d]].sql").drop (j + 2) ∧
       tW.template = tW.prefixStr ++ TEMPLATE_DATE_PLACEHOLDER_START ++
         tW.date_format ++ TEMPLATE_DATE_PLACEHOLDER_END ++ tW.postfixStr) :=
  ⟨rfl, rfl,
    c4_template_structural_invariant pyLib d0 (str "db.[[%Y%m%d]].sql") tW rfl rfl⟩

/-- Witness for C5 at the marker-free pattern `"backup.sql"`. -/
theorem c5_missing_date_token_witness :
    (¬ TEMPLATE_DATE_PLACEHOLDER_START <:+: str "backup.sql" ∨
     ¬ TEMPLATE_DATE_PLACEHOLDER_END <:+: str "backup.sql") ∧
    mkFilenameTemplate pyLib d0 (str "backup.sql") = .error .missingDateToken :=
  ⟨Or.inl (by decide),
    c5_missing_date_token pyLib d0 (str "backup.sql") (Or.inl (by decide))⟩

/-- Witness for C6 at the pattern `"x[[%Y]]y"`, which contains both
markers. -/
theorem c6_invalid_date_format_witness :
    TEMPLATE_DATE_PLACEHOLDER_START <:+: str "x[[%Y]]y" ∧
    TEMPLATE_DATE_PLACEHOLDER_END <:+: str "x[[%Y]]y" ∧
    ((pyLib.strftime d0 (pySlice (str "x[[%Y]]y")
        (strFind (str "x[[%Y]]y") TEMPLATE_DATE_PLACEHOLDER_START +
          (TEMPLATE_DATE_PLACEHOLDER_START.length : Int))
        (strFind (str "x[[%Y]]y") TEMPLATE_DATE_PLACEHOLDER_END)) = [] →
      mkFilenameTemplate pyLib d0 (str "x[[%Y]]y") = .error .invalidDateFormat) ∧
     (pyLib.strftime d0 (pySlice (str "x[[%Y]]y")
        (strFind (str "x[[%Y]]y") TEMPLATE_DATE_PLACEHOLDER_START +
          (TEMPLATE_DATE_PLACEHOLDER_START.length : Int))
        (strFind (str "x[[%Y]]y") TEMPLATE_DATE_PLACEHOLDER_END)) ≠ [] →
      ∃ t, mkFilenameTemplate pyLib d0 (str "x[[%Y]]y") = .ok t)) :=
  ⟨by decide, by decide,
    c6_invalid_date_format pyLib d0 (str "x[[%Y]]y") (by decide) (by decide)⟩

/-- Witness for C7: `"notes.txt"` does not start with the prefix of the
template built from `"db.[[%Y%m%d]].sql"`, and `match` returns `none`. -/
theorem c7_non_match_rejection_witness :
    mkFilenameTemplate pyLib d0 (str "db.[[%Y%m%d]].sql") = .ok tW ∧
    ¬ tW.prefixStr.isPrefixOf (str "notes.txt") = true ∧
    tW.matchFilename pyLib (str "notes.txt") = none :=
  ⟨rfl, by decide,
    c7_non_match_rejection pyLib d0 (str "db.[[%Y%m%d]].sql") (str "notes.txt") tW
      rfl (Or.inl (by decide))⟩

/-- Witness for C8: `"db.sql"` is shorter than prefix plus postfix of the
template built from `"db.[[%Y%m%d]].sql"` while matching both, and
`match` returns `none`. -/
theorem c8_overlap_safety_witness :
    mkFilenameTemplate pyLib d0 (str "db.[[%Y%m%d]].sql") = .ok tW ∧
    pyLib.strptime [] tW.date_format = none ∧
    (str "db.sql").length < tW.prefixStr.length + tW.postfixStr.length ∧
    tW.matchFilename pyLib (str "db.sql") = none :=
  ⟨rfl, rfl, by decide,
    c8_overlap_safety pyLib d0 (str "db.[[%Y%m%d]].sql") (str "db.sql") tW rfl rfl
      (by decide)⟩

/-- Witness for C9 at the empty-postfix template built from `"a[[%Y]]"`
and the filename `"a2023"`. -/
theorem c9_empty_postfix_match_witness :
    mkFilenameTemplate pyLib d0 (str "a[[%Y]]") = .ok tEmptyPost ∧
    tEmptyPost.postfixStr = [] ∧
    (pySlice (str "a2023") (tEmptyPost.prefixStr.length : Int)
      (-(tEmptyPost.postfixStr.length : Int)) = [] ∧
     (pyLib.strptime [] tEmptyPost.date_format = none →
       tEmptyPost.matchFilename pyLib (str "a2023") = none) ∧
     (tEmptyPost.matchFilename pyLib (str "a2023") = none ∨
       tEmptyPost.matchFilename pyLib (str "a2023") =
         pyLib.strptime [] tEmptyPost.date_format)) :=
  ⟨rfl, rfl,
    c9_empty_postfix_match pyLib d0 (str "a[[%Y]]") (str "a2023") tEmptyPost rfl rfl⟩

/-- Witness for C10 at three records and `retain = 2`. -/
theorem c10_discard_subset_witness :
    (0 : Int) ≤ 2 ∧ filter_discard_backups b0 2 <+~ b0 ∧
    Multiset.count x0 (filter_discard_backups b0 2 : Multiset BackupInfo) ≤
      Multiset.count x0 (b0 : Multiset BackupInfo) :=
  ⟨by decide, (c10_discard_subset b0 2 (by decide)).1,
    (c10_discard_subset b0 2 (by decide)).2 x0⟩
